import Mathlib

/-!
Verification development for a two-script utility repository:

* `deduplicate.py` — a batch downloader: sanitizes folder/file names, fetches
  each manifest row's URL, rejects HTML payloads, writes files, appends
  failures to an error log, and reports progress.
* `undersampling.py` — a class rebalancer (`resample_dataset`): loads a
  labeled table, and per class subsamples either whole `message_tree_id`
  groups (tabular formats) or raw rows (JSON) down to a cap derived from the
  minority class and a user ratio.

Python strings are embedded as `List Char` (for character-level sanitizers)
or `String` (for opaque values), dataframes as a column-name list plus rows
of cell values, the float ratio as an exact rational, and the unseeded
random sampling as an arbitrary sampler function constrained by the
contract of `numpy.random.choice(replace=False)` / `DataFrame.sample`.
Fallible code returns `Except String`.
-/

/-! ## Generic list helpers -/

/-- First-occurrence deduplication with an accumulator of already-seen
elements; `uniqueAux seen l` keeps the elements of `l` outside `seen`,
first occurrence only.  Embeds `pandas.Series.unique` (which preserves
first-occurrence order). -/
def uniqueAux {α : Type} [DecidableEq α] : List α → List α → List α
  | _, [] => []
  | seen, a :: l => if a ∈ seen then uniqueAux seen l else a :: uniqueAux (a :: seen) l

/-- Distinct elements of a list in first-occurrence order
(`pandas.Series.unique`). -/
def uniqueList {α : Type} [DecidableEq α] (l : List α) : List α :=
  uniqueAux [] l

/-! ## deduplicate.py — name sanitizers -/

/-- The characters of the character class in
`re.sub(r'[<>:"/\\|?*\s*\.\.{1,}]', '_', name)` of `safe_folder_name`
(deduplicate.py line 14).  Inside a regex character class the pattern
denotes the plain set of its characters, so besides the reserved path
characters and (ASCII) whitespace it also contains the literal characters
`.`, `{`, `1`, `,` and `}`. -/
def folderBadChars : List Char :=
  ['<', '>', ':', '"', '/', '\\', '|', '?', '*', '.', '{', '1', ',', '}',
   ' ', '\t', '\n', '\r', '\x0B', '\x0C']

/-- Embeds `safe_folder_name` (deduplicate.py lines 12-16): replace every
character of `folderBadChars` by an underscore, strip leading and trailing
dots (`re.sub(r'^\.+|\.+$', '', ...)`), and truncate to 255 characters. -/
def safe_folder_name (s : List Char) : List Char :=
  let replaced := s.map (fun ch => if ch ∈ folderBadChars then '_' else ch)
  let noLead := replaced.dropWhile (fun ch => ch = '.')
  let noTrail := (noLead.reverse.dropWhile (fun ch => ch = '.')).reverse
  noTrail.take 255

/-- ASCII word character, embedding `\w` of Python's `re`. -/
def wordChar (ch : Char) : Bool :=
  ch.isAlphanum || ch == '_'

/-- Whether a list starts with a word character. -/
def headIsWord : List Char → Bool
  | [] => false
  | d :: _ => wordChar d

/-- Embeds `clean_file_name` (deduplicate.py lines 18-23):
`re.search(r'\.(\w+)', file)` finds the leftmost dot followed by a maximal
nonempty run of word characters, and the file name is truncated right after
that match (`file[:match.start() + len(match.group(0))]`); with no match the
name is returned unchanged. -/
def clean_file_name : List Char → List Char
  | [] => []
  | ch :: rest =>
    if ch == '.' && headIsWord rest then ch :: rest.takeWhile wordChar
    else ch :: clean_file_name rest

/-- The apostrophe character (escaped in `safe_filename`'s regex). -/
def quoteChar : Char := Char.ofNat 39

/-- The characters of the character class in
`re.sub(r'[!@#$%^&*()_+\-=\[\]{}|\\:;"\'<>,/?]', '_', file)` of
`safe_filename` (deduplicate.py lines 25-28).  Note that `_` is itself a
member of this class. -/
def fileBadChars : List Char :=
  ['!', '@', '#', '$', '%', '^', '&', '*', '(', ')', '_', '+', '-', '=',
   '[', ']', '{', '}', '|', '\\', ':', ';', '"', quoteChar, '<', '>', ',', '/', '?']

/-- Embeds `safe_filename` (deduplicate.py lines 25-28): replace every
character of `fileBadChars` by an underscore.  No dot trimming and no
length truncation are performed. -/
def safe_filename (s : List Char) : List Char :=
  s.map (fun ch => if ch ∈ fileBadChars then '_' else ch)

/-- A list of characters neither starts nor ends with a dot. -/
def NoDotEnds (l : List Char) : Prop :=
  l.head? ≠ some '.' ∧ l.getLast? ≠ some '.'

instance (l : List Char) : Decidable (NoDotEnds l) := by
  unfold NoDotEnds; infer_instance

/-- Whether the first list occurs at the head of the second. -/
def leadsWith : List Char → List Char → Bool
  | [], _ => true
  | _ :: _, [] => false
  | p :: ps, c :: cs => p == c && leadsWith ps cs

/-- Whether the first list occurs contiguously anywhere in the second. -/
def containsSeq (pat : List Char) : List Char → Bool
  | [] => leadsWith pat []
  | c :: rest => leadsWith pat (c :: rest) || containsSeq pat rest

/-- Embeds `is_html` (deduplicate.py lines 30-32): case-insensitive search
for the substring `<html` in the (decoded) content. -/
def is_html (content : List Char) : Bool :=
  containsSeq ['<', 'h', 't', 'm', 'l'] (content.map Char.toLower)

/-- Embeds Python's `str.strip()`: drop leading and trailing whitespace
characters. -/
def pyStrip (s : String) : String :=
  String.mk (((s.data.dropWhile Char.isWhitespace).reverse.dropWhile Char.isWhitespace).reverse)

/-! ## deduplicate.py — download loop model -/

/-- One row of the download manifest (columns `file_download_link`,
`organization`, `title`, `file_name`); a `none` URL embeds a NaN cell. -/
structure ManifestRow where
  url : Option String
  organization : String
  title : String
  file_name : String
deriving DecidableEq

/-- Outcome of `requests.get` + `raise_for_status`: either the payload
bytes or a raised `requests.RequestException`. -/
inductive FetchResult where
  | ok (content : List Char)
  | err (msg : String)
deriving DecidableEq

/-- Embeds the f-string `f"{download_count+1:5d}"`: decimal rendering
right-aligned in a field of width 5 (space padding). -/
def fiveD (n : Nat) : List Char :=
  let s := (Nat.repr n).data
  List.replicate (5 - s.length) ' ' ++ s

/-- Observable state of `download_files`: the success counter (seeded at
2087 in the source), the set of created directories (relative to the base
folder, as organization-folder / title-folder pairs), the written files,
the contents of the four log files, and the sequence of values given to
the progress bar (the bar is created with value 0). -/
structure DLState where
  count : Nat
  dirs : List (List Char × List Char)
  files : List ((List Char × List Char × List Char) × List Char)
  logLog : List String
  logCsv : List (List String)
  errorLog : List String
  errorCsv : List (List String)
  progress : List ℚ
  statusTexts : List String
deriving DecidableEq

/-- Header row written by `initialize_logging` into `log.csv`. -/
def logCsvHeader : List String :=
  ["Index", "Organization", "Title", "File Name", "URL", "Status", "Message"]

/-- Header row written by `initialize_logging` into `error.csv`. -/
def errorCsvHeader : List String :=
  ["Index", "Organization", "Title", "File Name", "URL", "Error Message"]

/-- State after `initialize_logging` and the progress-bar creation
(deduplicate.py lines 34-65): the four log files hold only their headers,
no directory or file exists yet, the counter is seeded at 2087, and the
progress bar was created with value 0. -/
def initState : DLState :=
  { count := 2087
    dirs := []
    files := []
    logLog := ["Download Log"]
    logCsv := [logCsvHeader]
    errorLog := ["Error Log"]
    errorCsv := [errorCsvHeader]
    progress := [0]
    statusTexts := [] }

/-- Destination directory of a row (deduplicate.py lines 76-84):
sanitized organization folder, and title folder prefixed with the
width-5 formatted next counter value and an underscore. -/
def destFolder (count : Nat) (row : ManifestRow) : List Char × List Char :=
  (safe_folder_name row.organization.data,
   fiveD (count + 1) ++ '_' :: safe_folder_name row.title.data)

/-- Embeds one iteration of the `for index, row in df.iterrows()` loop of
`download_files` (deduplicate.py lines 67-109): skip blank URLs, create the
destination directory (before the fetch), then fetch; a request error or an
HTML-sniffed payload appends a line to `error.log` and skips the row;
otherwise the file is written, the counter incremented, and the progress
bar updated with `download_count / total_files`. -/
def processRow (fetch : String → FetchResult) (total : Nat) (s : DLState)
    (row : ManifestRow) : DLState :=
  match row.url with
  | none => s
  | some u =>
    if pyStrip u = "" then s
    else
      let dir := destFolder s.count row
      let s1 : DLState :=
        { s with dirs := if dir ∈ s.dirs then s.dirs else s.dirs ++ [dir] }
      let safeFile := safe_filename (clean_file_name row.file_name.data)
      match fetch u with
      | .err msg =>
        { s1 with errorLog := s1.errorLog ++ [u ++ " 다운로드 오류: " ++ msg] }
      | .ok content =>
        if is_html content then
          { s1 with errorLog := s1.errorLog ++
              [u ++ " 다운로드 오류: 다운로드한 콘텐츠가 HTML입니다. 유효한 파일이 아닙니다."] }
        else
          { s1 with
            files := s1.files ++ [((dir.1, dir.2, safeFile), content)]
            count := s1.count + 1
            progress := s1.progress ++ [((s1.count + 1 : Nat) : ℚ) / (total : ℚ)]
            statusTexts := s1.statusTexts ++
              ["진행 중: " ++ Nat.repr (s1.count + 1) ++ "/" ++ Nat.repr total
                ++ " 파일 다운로드 중"] }

/-- Embeds `download_files` (deduplicate.py lines 58-109) up to the final
zip-archiving step (which only reads the produced directory tree and is not
modeled).  The network is an oracle `fetch` from URL to outcome. -/
def download_files (fetch : String → FetchResult) (df : List ManifestRow) : DLState :=
  df.foldl (processRow fetch df.length) initState

/-- A manifest row reaches the `except` branch: its URL is non-blank and
the fetch raises or the payload sniffs as HTML. -/
def rowFails (fetch : String → FetchResult) (row : ManifestRow) : Bool :=
  match row.url with
  | none => false
  | some u =>
    if pyStrip u = "" then false
    else
      match fetch u with
      | .err _ => true
      | .ok content => is_html content

/-- A manifest row is downloaded successfully: non-blank URL, no request
error, payload not sniffed as HTML. -/
def rowSucceeds (fetch : String → FetchResult) (row : ManifestRow) : Bool :=
  match row.url with
  | none => false
  | some u =>
    if pyStrip u = "" then false
    else
      match fetch u with
      | .err _ => false
      | .ok content => !is_html content

/-- The fetch of a URL fails (request error or HTML payload). -/
def fetchFails (fetch : String → FetchResult) (u : String) : Bool :=
  match fetch u with
  | .err _ => true
  | .ok content => is_html content

/-- The progress values reported by `k` consecutive successful downloads
starting from counter value `c0`: `(c0+1)/total, (c0+2)/total, ...`. -/
def expectedProgress (c0 : Nat) (total : Nat) : Nat → List ℚ
  | 0 => []
  | k + 1 => ((c0 + 1 : Nat) : ℚ) / (total : ℚ) :: expectedProgress (c0 + 1) total k

/-! ## undersampling.py — data model -/

/-- A loaded table: column names and rows of cell values (one cell per
column, as opaque strings). -/
structure DataFrame where
  cols : List String
  rows : List (List String)
deriving DecidableEq

/-- Cell of a row in a named column (lookup by the column's position in the
header, as `df['...']` does once the column exists). -/
def cellAt (cols : List String) (name : String) (rw : List String) : String :=
  rw.getD (cols.indexOf name) ""

/-- The row's value in the label column `분류`. -/
def labelOf (cols : List String) (rw : List String) : String :=
  cellAt cols "분류" rw

/-- The row's value in the grouping column `message_tree_id`. -/
def keyOf (cols : List String) (rw : List String) : String :=
  cellAt cols "message_tree_id" rw

/-- Embeds `df[df['분류'] == category]` (undersampling.py line 52): the
rows of one class, in order. -/
def classRows (cols : List String) (rows : List (List String)) (c : String) :
    List (List String) :=
  rows.filter (fun rw => decide (labelOf cols rw = c))

/-- Embeds `df['분류'].unique()` (undersampling.py line 51): the distinct
class labels in first-occurrence order. -/
def classCats (cols : List String) (rows : List (List String)) : List String :=
  uniqueList (rows.map (labelOf cols))

/-- Embeds `len(group['message_tree_id'].unique())` (undersampling.py
line 55): number of distinct grouping keys within one class. -/
def groupCount (cols : List String) (rows : List (List String)) (c : String) : Nat :=
  (uniqueList ((classRows cols rows c).map (keyOf cols))).length

/-- Embeds `min(class_group_counts.values())` (undersampling.py line 58):
minimum over the classes (in insertion order) of the distinct-group
counts.  Python's `min` raises on an empty dict, which the caller guards. -/
def minGroupCount (cols : List String) (rows : List (List String)) : Nat :=
  match classCats cols rows with
  | [] => 0
  | c :: cs => cs.foldl (fun acc c2 => Nat.min acc (groupCount cols rows c2)) (groupCount cols rows c)

/-- Embeds `original_class_counts.min()` of the JSON path (undersampling.py
lines 87-90): minimum class row count. -/
def minClassCount (cols : List String) (rows : List (List String)) : Nat :=
  match classCats cols rows with
  | [] => 0
  | c :: cs => cs.foldl (fun acc c2 => Nat.min acc (classRows cols rows c2).length) (classRows cols rows c).length

/-- Embeds `math.ceil(m * r)` for a natural `m` and exact rational `r`,
computed on the rational's numerator and denominator with Euclidean
integer division (which is floor division for a positive divisor, so
`(a + b - 1) / b = ⌈a / b⌉`); `ceilMul_eq` below proves it equal to
`⌈(m : ℚ) * r⌉`. -/
def ceilMul (m : Nat) (r : ℚ) : Int :=
  Int.ediv ((m : Int) * r.num + (r.den : Int) - 1) (r.den : Int)

/-- Cap on groups per class, `max_groups = ceil(min_group_count * ratio)`
(undersampling.py line 61), clamped at zero (`Int.toNat`); the negative
case is diverted to an error branch before this value is used. -/
def maxGroupsN (r : ℚ) (cols : List String) (rows : List (List String)) : Nat :=
  (ceilMul (minGroupCount cols rows) r).toNat

/-- Cap on rows per class for the JSON path,
`max_samples = ceil(min_class_count * ratio)` (undersampling.py line 93). -/
def maxSamplesN (r : ℚ) (cols : List String) (rows : List (List String)) : Nat :=
  (ceilMul (minClassCount cols rows) r).toNat

/-- Embeds `np.random.choice(unique_tree_ids, size=min(len(unique_tree_ids),
max_groups), replace=False)` (undersampling.py line 69) for one class,
with the random draw abstracted as `choose`. -/
def drawnIds (choose : List String → Nat → List String) (cols : List String)
    (rows : List (List String)) (mg : Nat) (c : String) : List String :=
  let ids := uniqueList ((classRows cols rows c).map (keyOf cols))
  choose ids (Nat.min ids.length mg)

/-- Embeds `group[group['message_tree_id'].isin(sampled_tree_ids)]`
(undersampling.py line 71): the rows of the class whose grouping key was
drawn, kept whole and in order. -/
def tabularBucket (choose : List String → Nat → List String) (cols : List String)
    (rows : List (List String)) (mg : Nat) (c : String) : List (List String) :=
  (classRows cols rows c).filter
    (fun rw => decide (keyOf cols rw ∈ drawnIds choose cols rows mg c))

/-- Embeds `pd.concat(sampled_groups)` (undersampling.py lines 64-75): the
per-class sampled groups concatenated over the classes. -/
def tabularOut (choose : List String → Nat → List String) (r : ℚ)
    (cols : List String) (rows : List (List String)) : List (List String) :=
  ((classCats cols rows).map (tabularBucket choose cols rows (maxGroupsN r cols rows))).flatten

/-- Embeds `x.sample(min(len(x), max_samples))` (undersampling.py line 96)
for one class, with the random draw abstracted as `sample`. -/
def jsonBucket (sample : List (List String) → Nat → List (List String))
    (cols : List String) (rows : List (List String)) (ms : Nat) (c : String) :
    List (List String) :=
  sample (classRows cols rows c) (Nat.min (classRows cols rows c).length ms)

/-- Embeds `df.groupby('분류').apply(lambda x: x.sample(...)).reset_index(
drop=True)` (undersampling.py line 96): the per-class row samples
concatenated over the classes.  (pandas iterates group keys in sorted
order; the order of classes is irrelevant to every property stated
below.) -/
def jsonOut (sample : List (List String) → Nat → List (List String)) (r : ℚ)
    (cols : List String) (rows : List (List String)) : List (List String) :=
  ((classCats cols rows).map (jsonBucket sample cols rows (maxSamplesN r cols rows))).flatten

/-- Embeds the grouped (non-JSON) branch of `resample_dataset`
(undersampling.py lines 44-82) on an already loaded, column-stripped
dataframe: check the two required columns, fail on an empty class set
(Python's `min` on an empty dict raises `ValueError`) or a negative cap
(`np.random.choice` raises on a negative size), and otherwise build the
resampled dataframe over the same columns. -/
def resampleTabular (choose : List String → Nat → List String) (r : ℚ)
    (df : DataFrame) : Except String DataFrame :=
  if "분류" ∈ df.cols ∧ "message_tree_id" ∈ df.cols then
    if classCats df.cols df.rows = [] then
      .error "ValueError: min() arg is an empty sequence"
    else if ceilMul (minGroupCount df.cols df.rows) r < 0 then
      .error "ValueError: negative dimensions are not allowed"
    else
      .ok ⟨df.cols, tabularOut choose r df.cols df.rows⟩
  else
    .error "Required columns \x27분류\x27 or \x27message_tree_id\x27 not found in the dataset."

/-- Embeds the JSON branch of `resample_dataset` (undersampling.py lines
84-99): `df['분류']` raises a (pandas) `KeyError` when the column is
missing, `.min()` of an empty `value_counts` is NaN and `ceil` then raises,
a negative cap makes `DataFrame.sample` raise, and otherwise the resampled
dataframe is built over the same columns. -/
def resampleJson (sample : List (List String) → Nat → List (List String)) (r : ℚ)
    (df : DataFrame) : Except String DataFrame :=
  if "분류" ∈ df.cols then
    if classCats df.cols df.rows = [] then
      .error "ValueError: cannot convert float NaN to integer"
    else if ceilMul (minClassCount df.cols df.rows) r < 0 then
      .error "ValueError: a negative number of rows requested"
    else
      .ok ⟨df.cols, jsonOut sample r df.cols df.rows⟩
  else
    .error "KeyError: 분류"

/-- File extension after `os.path.splitext(input_file)[1].lower()`
(undersampling.py line 22). -/
inductive FileExt where
  | xlsx
  | csv
  | json
  | parquet
  | other (s : String)
deriving DecidableEq

/-- An input file for `resample_dataset`: its extension, the result of
`chardet` encoding detection plus whether `pd.read_csv` succeeds under it
(consulted only for `.csv`), and the table its bytes parse to. -/
structure InputFile where
  ext : FileExt
  csvEncoding : String
  csvDecodable : Bool
  content : DataFrame
deriving DecidableEq

/-- Embeds the extension dispatch of `resample_dataset` (undersampling.py
lines 25-39): read the file with the matching reader, turn a
`UnicodeDecodeError` under the detected csv encoding into the descriptive
`ValueError`, and reject unsupported extensions. -/
def loadFile (f : InputFile) : Except String DataFrame :=
  match f.ext with
  | .xlsx => .ok f.content
  | .csv =>
    if f.csvDecodable then .ok f.content
    else .error ("Unable to decode the file with detected encoding: " ++ f.csvEncoding ++ ".")
  | .json => .ok f.content
  | .parquet => .ok f.content
  | .other _ => .error "Unsupported file format. Please upload a file in xlsx, csv, json, or parquet format."

/-- Embeds `df.columns = df.columns.str.strip()` (undersampling.py
line 42). -/
def stripDF (df : DataFrame) : DataFrame :=
  ⟨df.cols.map pyStrip, df.rows⟩

/-- The single output write of `resample_dataset` (undersampling.py lines
101-119): the resampled table, written with the writer matching the input
extension (to the input path with `_resampled` before the extension). -/
structure WriteOut where
  ext : FileExt
  df : DataFrame
deriving DecidableEq

/-- Embeds `resample_dataset` (undersampling.py lines 12-122) end to end:
load by extension, strip column names, rebalance by the grouped policy
(non-JSON) or the row policy (JSON), and emit the single output write.
Every error path returns before a `WriteOut` is produced, so no output
(partial or complete) exists on error. -/
def resample_dataset (choose : List String → Nat → List String)
    (sample : List (List String) → Nat → List (List String)) (r : ℚ)
    (f : InputFile) : Except String WriteOut :=
  match loadFile f with
  | .error e => .error e
  | .ok df0 =>
    let df := stripDF df0
    match (if f.ext = FileExt.json then resampleJson sample r df else resampleTabular choose r df) with
    | .error e => .error e
    | .ok out => .ok ⟨f.ext, out⟩

/-- Contract of `np.random.choice(ids, size=n, replace=False)` for `n ≤
len(ids)`: exactly `n` elements, all drawn from `ids`. -/
def ChooseOk (choose : List String → Nat → List String) : Prop :=
  ∀ ids n, n ≤ ids.length →
    (choose ids n).length = n ∧ ∀ x ∈ choose ids n, x ∈ ids

/-- Contract of `DataFrame.sample(n)` (without replacement) for `n ≤
len(x)`: exactly `n` rows forming a sub-multiset of the input rows. -/
def SampleOk (sample : List (List String) → Nat → List (List String)) : Prop :=
  ∀ l n, n ≤ l.length →
    (sample l n).length = n ∧ (↑(sample l n) : Multiset (List String)) ≤ ↑l

/-- A concrete sampler satisfying `ChooseOk`: take the first `n`. -/
def chooseTake (ids : List String) (n : Nat) : List String :=
  ids.take n

/-- A concrete sampler satisfying `SampleOk`: take the first `n`. -/
def sampleTake (l : List (List String)) (n : Nat) : List (List String) :=
  l.take n

/-- Multiplicity of a row in a list of rows (the canonical counting
function used to state that resampling never duplicates a row). -/
def cnt (x : List String) (l : List (List String)) : Nat :=
  l.countP (fun y => decide (y = x))

/-! ## Concrete inputs used by witnesses and counterexamples -/

/-- Columns of a small concrete tabular dataset. -/
def tabColsW : List String := ["분류", "message_tree_id", "text"]

/-- Rows of the concrete tabular dataset: class `A` with groups `k1`, `k2`
(group `k1` has two rows), class `B` with groups `k3`, `k4`. -/
def tabRowsW : List (List String) :=
  [["A", "k1", "r1"], ["A", "k1", "r2"], ["A", "k2", "r3"],
   ["B", "k3", "r4"], ["B", "k4", "r5"]]

/-- The concrete tabular dataframe. -/
def dfTabW : DataFrame := ⟨tabColsW, tabRowsW⟩

/-- The concrete tabular dataset as an `.xlsx` input file. -/
def fileTabW : InputFile := ⟨.xlsx, "", true, dfTabW⟩

/-- With the take-first sampler and ratio 1 the grouped policy keeps the
whole concrete tabular dataset. -/
def outTabW : DataFrame := ⟨tabColsW, tabRowsW⟩

/-- The corresponding output write. -/
def writeTabW : WriteOut := ⟨.xlsx, outTabW⟩

/-- Columns of the concrete JSON dataset. -/
def jsonColsW : List String := ["분류", "text"]

/-- Rows of the concrete JSON dataset of claim C7: label `A` with 10 rows,
label `B` with 4 rows. -/
def jsonRowsW : List (List String) :=
  [["A", "a1"], ["A", "a2"], ["A", "a3"], ["A", "a4"], ["A", "a5"],
   ["A", "a6"], ["A", "a7"], ["A", "a8"], ["A", "a9"], ["A", "a10"],
   ["B", "b1"], ["B", "b2"], ["B", "b3"], ["B", "b4"]]

/-- The concrete JSON dataframe. -/
def dfJsonW : DataFrame := ⟨jsonColsW, jsonRowsW⟩

/-- With the take-first sampler and ratio 2 the row policy keeps the first
8 `A` rows and all 4 `B` rows. -/
def outJsonW : DataFrame :=
  ⟨jsonColsW,
   [["A", "a1"], ["A", "a2"], ["A", "a3"], ["A", "a4"], ["A", "a5"],
    ["A", "a6"], ["A", "a7"], ["A", "a8"],
    ["B", "b1"], ["B", "b2"], ["B", "b3"], ["B", "b4"]]⟩

/-- An input file with an unsupported extension. -/
def fileUnsupportedW : InputFile := ⟨.other ".txt", "", true, ⟨[], []⟩⟩

/-- A csv input file that cannot be decoded under the detected encoding. -/
def fileBadCsvW : InputFile := ⟨.csv, "EUC-KR", false, dfTabW⟩

/-- A tabular (xlsx) input file lacking the required columns. -/
def fileMissingColsW : InputFile := ⟨.xlsx, "", true, ⟨["a"], [["x"]]⟩⟩

/-- A manifest row whose URL will fail to download. -/
def rowBadW : ManifestRow :=
  ⟨some "http://example.com/bad", "org", "title", "f.bin"⟩

/-- A manifest row whose URL downloads successfully. -/
def rowOkW : ManifestRow :=
  ⟨some "http://example.com/f.bin", "org", "title", "f.bin"⟩

/-- A network oracle on which every request raises an HTTP error. -/
def fetchErrW : String → FetchResult := fun _ => .err "404 Client Error"

/-- A network oracle on which every request returns non-HTML bytes. -/
def fetchOkW : String → FetchResult := fun _ => .ok ['d', 'a', 't', 'a']

/-! ## Helper lemmas: uniqueness, counting, partitioning -/

theorem mem_uniqueAux {α : Type} [DecidableEq α] (l : List α) (seen : List α) (x : α) :
    x ∈ uniqueAux seen l ↔ x ∈ l ∧ x ∉ seen := by
  induction l generalizing seen with
  | nil => simp [uniqueAux]
  | cons a t ih =>
    simp only [uniqueAux]
    split
    · rename_i ha
      rw [ih]
      simp only [List.mem_cons]
      constructor
      · rintro ⟨h1, h2⟩
        exact ⟨Or.inr h1, h2⟩
      · rintro ⟨h1 | h1, h2⟩
        · subst h1; exact absurd ha h2
        · exact ⟨h1, h2⟩
    · rename_i ha
      rw [List.mem_cons, ih]
      simp only [List.mem_cons]
      constructor
      · rintro (rfl | ⟨h1, h2⟩)
        · exact ⟨Or.inl rfl, ha⟩
        · exact ⟨Or.inr h1, fun hs => h2 (Or.inr hs)⟩
      · rintro ⟨rfl | h1, h2⟩
        · exact Or.inl rfl
        · by_cases hxa : x = a
          · exact Or.inl hxa
          · exact Or.inr ⟨h1, fun hs => hs.elim hxa h2⟩

theorem nodup_uniqueAux {α : Type} [DecidableEq α] (l : List α) (seen : List α) :
    (uniqueAux seen l : List α).Nodup := by
  induction l generalizing seen with
  | nil => simp [uniqueAux]
  | cons a t ih =>
    simp only [uniqueAux]
    split
    · exact ih seen
    · refine List.nodup_cons.2 ⟨fun hmem => ?_, ih (a :: seen)⟩
      exact ((mem_uniqueAux t (a :: seen) a).1 hmem).2 (List.mem_cons_self a seen)

theorem mem_uniqueList {α : Type} [DecidableEq α] (l : List α) (x : α) :
    x ∈ uniqueList l ↔ x ∈ l := by
  simp [uniqueList, mem_uniqueAux]

theorem nodup_uniqueList {α : Type} [DecidableEq α] (l : List α) :
    (uniqueList l).Nodup :=
  nodup_uniqueAux l []

theorem uniqueList_length_le_of_subset {α : Type} [DecidableEq α] (l d : List α)
    (h : ∀ x ∈ l, x ∈ d) : (uniqueList l).length ≤ d.length := by
  have h1 : (uniqueList l).toFinset ⊆ d.toFinset := by
    intro x hx
    rw [List.mem_toFinset] at *
    exact h x ((mem_uniqueList l x).1 hx)
  calc (uniqueList l).length
      = (uniqueList l).toFinset.card := (List.toFinset_card_of_nodup (nodup_uniqueList l)).symm
    _ ≤ d.toFinset.card := Finset.card_le_card h1
    _ ≤ d.length := List.toFinset_card_le d

/-! ## Sanitizer properties -/

theorem safe_folder_name_subset_map (s : List Char) :
    ∀ ch ∈ safe_folder_name s, ch ∈ s.map (fun c => if c ∈ folderBadChars then '_' else c) := by
  intro ch hch
  simp only [safe_folder_name] at hch
  have h1 := (List.take_sublist _ _).subset hch
  rw [List.mem_reverse] at h1
  have h2 := (List.dropWhile_sublist _).subset h1
  rw [List.mem_reverse] at h2
  exact (List.dropWhile_sublist _).subset h2

theorem safe_folder_name_chars (s : List Char) :
    ∀ ch ∈ safe_folder_name s, ch ∉ folderBadChars := by
  intro ch hch
  obtain ⟨c0, _, hc0⟩ := List.mem_map.1 (safe_folder_name_subset_map s ch hch)
  by_cases hb : c0 ∈ folderBadChars
  · rw [if_pos hb] at hc0
    subst hc0
    decide
  · rw [if_neg hb] at hc0
    subst hc0
    exact hb

theorem safe_folder_name_no_dot (s : List Char) : '.' ∉ safe_folder_name s :=
  fun h => safe_folder_name_chars s '.' h (by decide)

/-- C6 (amended): the claimed sanitizer guarantees hold for
`safe_folder_name`: its output contains no character of its disallowed
class, neither starts nor ends with a dot, and has length at most 255.
(The original claim extends this to `clean_file_name` and `safe_filename`,
which the counterexample refutes.) -/
theorem C6_sanitizers_amended (s : List Char) :
    (∀ ch ∈ safe_folder_name s, ch ∉ folderBadChars) ∧
    NoDotEnds (safe_folder_name s) ∧ (safe_folder_name s).length ≤ 255 := by
  refine ⟨safe_folder_name_chars s, ⟨fun h => ?_, fun h => ?_⟩, ?_⟩
  · exact safe_folder_name_no_dot s (List.mem_of_mem_head? (Option.mem_def.2 h))
  · exact safe_folder_name_no_dot s (List.mem_of_mem_getLast? (Option.mem_def.2 h))
  · simp only [safe_folder_name]
    rw [List.length_take]
    exact inf_le_left

set_option maxRecDepth 8192 in
/-- C6 counterexample: the claimed guarantees fail for the other two
sanitizers.  `clean_file_name ".."` keeps its leading/trailing dots (the
regex `\.(\w+)` does not match, so the name passes through unchanged);
`safe_filename` maps `!` to `_`, which is itself in its disallowed class,
keeps dots, and neither sanitizer truncates to 255 characters. -/
theorem C6_sanitizers_counterexample :
    ¬ NoDotEnds (clean_file_name ['.', '.']) ∧
    ('_' ∈ safe_filename ['a', '!', 'b'] ∧ '_' ∈ fileBadChars) ∧
    ¬ NoDotEnds (safe_filename ['.']) ∧
    (safe_filename (List.replicate 256 'a')).length = 256 ∧
    (clean_file_name (List.replicate 256 'a')).length = 256 := by
  decide

/-! ## Ceiling arithmetic bridge -/

theorem ceilMul_eq (m : Nat) (r : ℚ) : ceilMul m r = ⌈(m : ℚ) * r⌉ := by
  have hbZ : (0 : ℤ) < (r.den : ℤ) := by exact_mod_cast r.den_pos
  have hdiv : ceilMul m r = ((m : ℤ) * r.num + (r.den : ℤ) - 1) / (r.den : ℤ) := rfl
  have hmod := Int.ediv_add_emod ((m : ℤ) * r.num + (r.den : ℤ) - 1) (r.den : ℤ)
  have hr1 : 0 ≤ ((m : ℤ) * r.num + (r.den : ℤ) - 1) % (r.den : ℤ) :=
    Int.emod_nonneg _ (ne_of_gt hbZ)
  have hr2 : ((m : ℤ) * r.num + (r.den : ℤ) - 1) % (r.den : ℤ) < (r.den : ℤ) :=
    Int.emod_lt_of_pos _ hbZ
  have hub : (m : ℤ) * r.num ≤ (r.den : ℤ) * (ceilMul m r) := by
    rw [hdiv]; linarith
  have hlb : (r.den : ℤ) * (ceilMul m r - 1) < (m : ℤ) * r.num := by
    rw [hdiv, mul_sub, mul_one]; linarith
  have hx : (m : ℚ) * r = (((m : ℤ) * r.num : ℤ) : ℚ) / ((r.den : ℤ) : ℚ) := by
    conv_lhs => rw [← Rat.num_div_den r]
    push_cast
    ring
  have hbQ : (0 : ℚ) < ((r.den : ℤ) : ℚ) := by exact_mod_cast hbZ
  refine le_antisymm ?_ ?_
  · have h1 : ceilMul m r - 1 < ⌈(m : ℚ) * r⌉ := by
      rw [Int.lt_ceil, hx, lt_div_iff₀ hbQ]
      have h2 : (((r.den : ℤ) : ℚ)) * (((ceilMul m r - 1 : ℤ)) : ℚ) < (((m : ℤ) * r.num : ℤ) : ℚ) := by
        exact_mod_cast hlb
      push_cast at h2 ⊢
      linarith
    omega
  · rw [Int.ceil_le, hx, div_le_iff₀ hbQ]
    have h2 : (((m : ℤ) * r.num : ℤ) : ℚ) ≤ (((r.den : ℤ) : ℚ)) * ((ceilMul m r : ℤ) : ℚ) := by
      exact_mod_cast hub
    linarith

/-! ## Counting and partition helpers -/

theorem cnt_eq_count (x : List String) (l : List (List String)) :
    cnt x l = @List.count (List String) instBEqOfDecidableEq x l :=
  rfl

theorem multiset_le_iff_cnt {l1 l2 : List (List String)} :
    (↑l1 : Multiset (List String)) ≤ ↑l2 ↔ ∀ x, cnt x l1 ≤ cnt x l2 := by
  rw [Multiset.le_iff_count]
  constructor
  · intro h x
    have hx := h x
    rwa [Multiset.coe_count, Multiset.coe_count, ← cnt_eq_count, ← cnt_eq_count] at hx
  · intro h x
    rw [Multiset.coe_count, Multiset.coe_count, ← cnt_eq_count, ← cnt_eq_count]
    exact h x

theorem cnt_flatten_map {β : Type} (x : List String) (g : β → List (List String))
    (cs : List β) :
    cnt x ((cs.map g).flatten) = (cs.map fun c => cnt x (g c)).sum := by
  induction cs with
  | nil => simp [cnt]
  | cons c t ih =>
    have hstep : cnt x ((g c :: t.map g).flatten) = cnt x (g c) + cnt x ((t.map g).flatten) := by
      simp [cnt, List.countP_append]
    rw [List.map_cons, hstep, ih, List.map_cons, List.sum_cons]

theorem countP_flatten_map {β : Type} (p : List String → Bool)
    (g : β → List (List String)) (cs : List β) :
    ((cs.map g).flatten).countP p = (cs.map fun c => (g c).countP p).sum := by
  induction cs with
  | nil => simp
  | cons c t ih => simp [List.countP_append, ih]

theorem sum_le_of_ite {β : Type} [DecidableEq β] {cs : List β} (h : cs.Nodup)
    (f : β → ℕ) (key : β) (B : ℕ)
    (hf : ∀ c ∈ cs, f c ≤ if c = key then B else 0) : (cs.map f).sum ≤ B := by
  induction cs with
  | nil => simp
  | cons c t ih =>
    rw [List.map_cons, List.sum_cons]
    obtain ⟨hc, ht⟩ := List.nodup_cons.1 h
    by_cases hck : c = key
    · subst hck
      have h1 : f c ≤ B := by simpa using hf c (List.mem_cons_self c t)
      have h2 : (t.map f).sum = 0 := by
        apply List.sum_eq_zero
        intro y hy
        obtain ⟨c2, hc2, rfl⟩ := List.mem_map.1 hy
        have h3 := hf c2 (List.mem_cons_of_mem c hc2)
        have hne : ¬ c2 = c := by
          intro he
          subst he
          exact hc hc2
        rw [if_neg hne] at h3
        omega
      omega
    · have h1 : f c ≤ 0 := by
        have := hf c (List.mem_cons_self c t)
        rwa [if_neg hck] at this
      have h2 := ih ht (fun c2 hc2 => hf c2 (List.mem_cons_of_mem c hc2))
      omega

theorem mem_classRows {cols : List String} {rows : List (List String)} {c : String}
    {x : List String} :
    x ∈ classRows cols rows c ↔ x ∈ rows ∧ labelOf cols x = c := by
  rw [classRows, List.mem_filter, decide_eq_true_eq]

theorem cnt_classRows_le (cols : List String) (rows : List (List String))
    (c : String) (x : List String) : cnt x (classRows cols rows c) ≤ cnt x rows :=
  (List.filter_sublist rows).countP_le _

theorem cnt_classRows_eq_zero (cols : List String) (rows : List (List String))
    {c : String} {x : List String} (hne : c ≠ labelOf cols x) :
    cnt x (classRows cols rows c) = 0 := by
  rw [cnt, List.countP_eq_zero]
  intro y hy
  rw [decide_eq_true_eq]
  intro he
  subst he
  exact hne (mem_classRows.1 hy).2.symm

theorem flattenBuckets_cnt_le (cols : List String) (rows : List (List String))
    (g : String → List (List String))
    (hg : ∀ c ∈ classCats cols rows, ∀ x, cnt x (g c) ≤ cnt x (classRows cols rows c))
    (x : List String) :
    cnt x (((classCats cols rows).map g).flatten) ≤ cnt x rows := by
  rw [cnt_flatten_map]
  apply sum_le_of_ite (nodup_uniqueList _) _ (labelOf cols x) _
  intro c hc
  refine (hg c hc x).trans ?_
  by_cases hcx : c = labelOf cols x
  · rw [if_pos hcx]
    exact cnt_classRows_le cols rows c x
  · rw [if_neg hcx]
    rw [cnt_classRows_eq_zero cols rows hcx]

theorem flattenBuckets_multiset_le (cols : List String) (rows : List (List String))
    (g : String → List (List String))
    (hg : ∀ c ∈ classCats cols rows, ∀ x, cnt x (g c) ≤ cnt x (classRows cols rows c)) :
    (↑(((classCats cols rows).map g).flatten) : Multiset (List String)) ≤ ↑rows :=
  multiset_le_iff_cnt.2 (flattenBuckets_cnt_le cols rows g hg)

/-! ## Sampler contract instances -/

theorem chooseTake_ok : ChooseOk chooseTake := by
  intro ids n hn
  constructor
  · rw [chooseTake, List.length_take]
    exact min_eq_left hn
  · intro x hx
    exact (List.take_sublist n ids).subset hx

theorem sampleTake_ok : SampleOk sampleTake := by
  intro l n hn
  constructor
  · rw [sampleTake, List.length_take]
    exact min_eq_left hn
  · exact Multiset.coe_le.2 (List.take_sublist n l).subperm

/-! ## Inversion lemmas for the rebalancer -/

theorem resampleTabular_ok {choose : List String → Nat → List String} {r : ℚ}
    {df : DataFrame} {out : DataFrame}
    (h : resampleTabular choose r df = .ok out) :
    out = ⟨df.cols, tabularOut choose r df.cols df.rows⟩ := by
  unfold resampleTabular at h
  split_ifs at h
  all_goals
    first
      | exact Except.noConfusion h
      | (injection h with h2; exact h2.symm)

theorem resampleJson_ok {sample : List (List String) → Nat → List (List String)} {r : ℚ}
    {df : DataFrame} {out : DataFrame}
    (h : resampleJson sample r df = .ok out) :
    out = ⟨df.cols, jsonOut sample r df.cols df.rows⟩ := by
  unfold resampleJson at h
  split_ifs at h
  all_goals
    first
      | exact Except.noConfusion h
      | (injection h with h2; exact h2.symm)

theorem loadFile_ok {f : InputFile} {df0 : DataFrame} (h : loadFile f = .ok df0) :
    df0 = f.content := by
  unfold loadFile at h
  cases hext : f.ext with
  | xlsx => rw [hext] at h; injection h with h2; exact h2.symm
  | csv =>
    rw [hext] at h
    split_ifs at h
    all_goals
      first
        | exact Except.noConfusion h
        | (injection h with h2; exact h2.symm)
  | json => rw [hext] at h; injection h with h2; exact h2.symm
  | parquet => rw [hext] at h; injection h with h2; exact h2.symm
  | other s => rw [hext] at h; exact Except.noConfusion h

theorem resample_dataset_ok {choose : List String → Nat → List String}
    {sample : List (List String) → Nat → List (List String)} {r : ℚ}
    {f : InputFile} {w : WriteOut}
    (h : resample_dataset choose sample r f = .ok w) :
    (f.ext = FileExt.json ∧ resampleJson sample r (stripDF f.content) = .ok w.df) ∨
    (f.ext ≠ FileExt.json ∧ resampleTabular choose r (stripDF f.content) = .ok w.df) := by
  unfold resample_dataset at h
  cases hl : loadFile f with
  | error e => rw [hl] at h; exact Except.noConfusion h
  | ok df0 =>
    rw [hl] at h
    obtain rfl := loadFile_ok hl
    dsimp only at h
    by_cases hj : f.ext = FileExt.json
    · rw [if_pos hj] at h
      cases hr : resampleJson sample r (stripDF f.content) with
      | error e => rw [hr] at h; exact Except.noConfusion h
      | ok out =>
        rw [hr] at h
        dsimp only at h
        injection h with h2
        left
        subst h2
        exact ⟨hj, rfl⟩
    · rw [if_neg hj] at h
      cases hr : resampleTabular choose r (stripDF f.content) with
      | error e => rw [hr] at h; exact Except.noConfusion h
      | ok out =>
        rw [hr] at h
        dsimp only at h
        injection h with h2
        right
        subst h2
        exact ⟨hj, rfl⟩

/-! ## Structure of the grouped-policy output -/

theorem drawnIds_eq (choose : List String → Nat → List String) (cols : List String)
    (rows : List (List String)) (mg : Nat) (c : String) :
    drawnIds choose cols rows mg c =
      choose (uniqueList ((classRows cols rows c).map (keyOf cols)))
        (Nat.min (uniqueList ((classRows cols rows c).map (keyOf cols))).length mg) :=
  rfl

theorem drawnIds_length {choose : List String → Nat → List String}
    (hch : ChooseOk choose) (cols : List String) (rows : List (List String))
    (mg : Nat) (c : String) :
    (drawnIds choose cols rows mg c).length =
      Nat.min (uniqueList ((classRows cols rows c).map (keyOf cols))).length mg := by
  rw [drawnIds_eq]
  exact (hch _ _ (Nat.min_le_left _ _)).1

theorem tabularOut_key_mem {choose : List String → Nat → List String} {r : ℚ}
    {cols : List String} {rows : List (List String)} {x : List String} {c : String}
    (hx : x ∈ tabularOut choose r cols rows) (hlab : labelOf cols x = c) :
    keyOf cols x ∈ drawnIds choose cols rows (maxGroupsN r cols rows) c ∧
      x ∈ classRows cols rows c := by
  rw [tabularOut, List.mem_flatten] at hx
  obtain ⟨l, hl, hxl⟩ := hx
  obtain ⟨c2, hc2, rfl⟩ := List.mem_map.1 hl
  rw [tabularBucket, List.mem_filter] at hxl
  obtain ⟨hmem, hkey⟩ := hxl
  have h1 : labelOf cols x = c2 := (mem_classRows.1 hmem).2
  have hceq : c2 = c := by rw [← h1, hlab]
  subst hceq
  exact ⟨of_decide_eq_true hkey, hmem⟩

/-- C1: for every tabular input with the label and grouping columns and
every ratio `r > 0`, each class of the resampled dataset has at most
`⌈min_class_group_count * r⌉` distinct grouping keys, where the minimum is
taken over the classes of the input; and for JSON input each class of the
resampled dataset has at most `⌈min_class_row_count * r⌉` rows.  Both hold
for any sampler satisfying the without-replacement contract. -/
theorem C1_resample_caps :
    (∀ choose r df out, ChooseOk choose → 0 < r →
      resampleTabular choose r df = Except.ok out →
      ∀ c, groupCount df.cols out.rows c ≤
        (⌈(minGroupCount df.cols df.rows : ℚ) * r⌉).toNat) ∧
    (∀ sample r df out, SampleOk sample → 0 < r →
      resampleJson sample r df = Except.ok out →
      ∀ c, out.rows.countP (fun x => decide (labelOf df.cols x = c)) ≤
        (⌈(minClassCount df.cols df.rows : ℚ) * r⌉).toNat) := by
  constructor
  · intro choose r df out hch hr h c
    obtain rfl := resampleTabular_ok h
    rw [← ceilMul_eq]
    show groupCount df.cols (tabularOut choose r df.cols df.rows) c ≤
      maxGroupsN r df.cols df.rows
    unfold groupCount
    refine le_trans
      (uniqueList_length_le_of_subset _
        (drawnIds choose df.cols df.rows (maxGroupsN r df.cols df.rows) c) ?_) ?_
    · intro k hk
      obtain ⟨x, hx, rfl⟩ := List.mem_map.1 hk
      exact (tabularOut_key_mem (mem_classRows.1 hx).1 (mem_classRows.1 hx).2).1
    · rw [drawnIds_length hch]
      exact Nat.min_le_right _ _
  · intro sample r df out hs hr h c
    obtain rfl := resampleJson_ok h
    rw [← ceilMul_eq]
    show (jsonOut sample r df.cols df.rows).countP
        (fun x => decide (labelOf df.cols x = c)) ≤ maxSamplesN r df.cols df.rows
    rw [jsonOut, countP_flatten_map]
    apply sum_le_of_ite (nodup_uniqueList _) _ c _
    intro c2 hc2
    obtain ⟨hlen, hle⟩ :=
      hs (classRows df.cols df.rows c2)
        (Nat.min (classRows df.cols df.rows c2).length (maxSamplesN r df.cols df.rows))
        (Nat.min_le_left _ _)
    by_cases hceq : c2 = c
    · subst hceq
      rw [if_pos rfl]
      calc (jsonBucket sample df.cols df.rows (maxSamplesN r df.cols df.rows) c2).countP
            (fun x => decide (labelOf df.cols x = c2))
          ≤ (jsonBucket sample df.cols df.rows (maxSamplesN r df.cols df.rows) c2).length :=
            List.countP_le_length _
        _ = Nat.min (classRows df.cols df.rows c2).length (maxSamplesN r df.cols df.rows) :=
            hlen
        _ ≤ maxSamplesN r df.cols df.rows := Nat.min_le_right _ _
    · rw [if_neg hceq, Nat.le_zero, List.countP_eq_zero]
      intro x hx
      have hxm : x ∈ classRows df.cols df.rows c2 :=
        Multiset.mem_coe.1 (Multiset.subset_of_le hle (Multiset.mem_coe.2 hx))
      rw [decide_eq_true_eq]
      intro hl2
      exact hceq (by rw [← (mem_classRows.1 hxm).2, hl2])

/-- C1 witness: the caps hold on the concrete tabular dataset (ratio 1,
class `A`) and the concrete JSON dataset (ratio 2, class `A`) with the
take-first samplers. -/
theorem C1_resample_caps_witness :
    groupCount dfTabW.cols outTabW.rows "A" ≤
      (⌈(minGroupCount dfTabW.cols dfTabW.rows : ℚ) * 1⌉).toNat ∧
    outJsonW.rows.countP (fun x => decide (labelOf dfJsonW.cols x = "A")) ≤
      (⌈(minClassCount dfJsonW.cols dfJsonW.rows : ℚ) * 2⌉).toNat :=
  ⟨C1_resample_caps.1 chooseTake 1 dfTabW outTabW chooseTake_ok one_pos rfl "A",
   C1_resample_caps.2 sampleTake 2 dfJsonW outJsonW sampleTake_ok two_pos rfl "A"⟩

/-- C2: under the grouped policy, for every class and every grouping key
drawn into that class's sampled id set, every input row of that class with
that key is in the resampled output, and every output row of that class
has its key in the drawn set — groups are kept or dropped whole. -/
theorem C2_groups_atomic (choose : List String → Nat → List String) (r : ℚ)
    (df out : DataFrame) (h : resampleTabular choose r df = .ok out)
    (c : String) (hc : c ∈ classCats df.cols df.rows) (k : String)
    (hk : k ∈ drawnIds choose df.cols df.rows (maxGroupsN r df.cols df.rows) c) :
    (∀ x ∈ df.rows, labelOf df.cols x = c → keyOf df.cols x = k → x ∈ out.rows) ∧
    (∀ x ∈ out.rows, labelOf df.cols x = c →
      keyOf df.cols x ∈ drawnIds choose df.cols df.rows (maxGroupsN r df.cols df.rows) c) := by
  obtain rfl := resampleTabular_ok h
  constructor
  · intro x hx hlab hkey
    show x ∈ tabularOut choose r df.cols df.rows
    rw [tabularOut, List.mem_flatten]
    refine ⟨tabularBucket choose df.cols df.rows (maxGroupsN r df.cols df.rows) c,
      List.mem_map.2 ⟨c, hc, rfl⟩, ?_⟩
    rw [tabularBucket, List.mem_filter]
    refine ⟨mem_classRows.2 ⟨hx, hlab⟩, decide_eq_true ?_⟩
    rw [hkey]
    exact hk
  · intro x hx hlab
    exact (tabularOut_key_mem hx hlab).1

/-- C2 witness: on the concrete tabular dataset with the take-first
sampler and ratio 1, key `k1` is drawn for class `A`; the input row
`["A","k1","r1"]` is kept, and its key is in the drawn set. -/
theorem C2_groups_atomic_witness :
    ["A", "k1", "r1"] ∈ outTabW.rows ∧
    keyOf dfTabW.cols ["A", "k1", "r1"] ∈
      drawnIds chooseTake dfTabW.cols dfTabW.rows (maxGroupsN 1 dfTabW.cols dfTabW.rows) "A" :=
  ⟨(C2_groups_atomic chooseTake 1 dfTabW outTabW rfl "A" (by decide) "k1"
      (by decide)).1 ["A", "k1", "r1"] (by decide) (by decide) (by decide),
   (C2_groups_atomic chooseTake 1 dfTabW outTabW rfl "A" (by decide) "k1"
      (by decide)).2 ["A", "k1", "r1"] (by decide) (by decide)⟩

/-! ## Error paths of the rebalancer -/

theorem resampleTabular_missing (choose : List String → Nat → List String) (r : ℚ)
    (df : DataFrame) (hm : "분류" ∉ df.cols ∨ "message_tree_id" ∉ df.cols) :
    resampleTabular choose r df =
      .error "Required columns \x27분류\x27 or \x27message_tree_id\x27 not found in the dataset." := by
  unfold resampleTabular
  rw [if_neg]
  rintro ⟨h1, h2⟩
  cases hm with
  | inl h => exact h h1
  | inr h => exact h h2

/-- C3: an unsupported extension, an undecodable csv encoding, and a
tabular file lacking one of the required columns each make
`resample_dataset` return the corresponding descriptive error; since the
embedding produces the output write only in its final `.ok` result, no
output (partial or complete) exists on any of these error paths. -/
theorem C3_error_paths :
    (∀ choose sample r f s, f.ext = FileExt.other s →
      resample_dataset choose sample r f =
        .error "Unsupported file format. Please upload a file in xlsx, csv, json, or parquet format.") ∧
    (∀ choose sample r f, f.ext = FileExt.csv → f.csvDecodable = false →
      resample_dataset choose sample r f =
        .error ("Unable to decode the file with detected encoding: " ++ f.csvEncoding ++ ".")) ∧
    (∀ choose sample r f,
      (f.ext = FileExt.xlsx ∨ f.ext = FileExt.parquet ∨
        (f.ext = FileExt.csv ∧ f.csvDecodable = true)) →
      ("분류" ∉ (stripDF f.content).cols ∨ "message_tree_id" ∉ (stripDF f.content).cols) →
      resample_dataset choose sample r f =
        .error "Required columns \x27분류\x27 or \x27message_tree_id\x27 not found in the dataset.") := by
  refine ⟨?_, ?_, ?_⟩
  · intro choose sample r f s hext
    have hl : loadFile f =
        .error "Unsupported file format. Please upload a file in xlsx, csv, json, or parquet format." := by
      unfold loadFile
      rw [hext]
    unfold resample_dataset
    rw [hl]
  · intro choose sample r f hext hdec
    have hl : loadFile f =
        .error ("Unable to decode the file with detected encoding: " ++ f.csvEncoding ++ ".") := by
      unfold loadFile
      rw [hext, hdec]
      rfl
    unfold resample_dataset
    rw [hl]
  · intro choose sample r f hsup hmiss
    have hload : loadFile f = .ok f.content := by
      rcases hsup with h | h | ⟨h1, h2⟩
      · unfold loadFile; rw [h]
      · unfold loadFile; rw [h]
      · unfold loadFile; rw [h1, h2]; rfl
    have hj : f.ext ≠ FileExt.json := by
      rcases hsup with h | h | ⟨h1, _⟩
      · rw [h]; intro hc; exact FileExt.noConfusion hc
      · rw [h]; intro hc; exact FileExt.noConfusion hc
      · rw [h1]; intro hc; exact FileExt.noConfusion hc
    have htab := resampleTabular_missing choose r (stripDF f.content) hmiss
    unfold resample_dataset
    rw [hload]
    dsimp only
    rw [if_neg hj, htab]

/-- C3 witness: the three error paths at concrete inputs. -/
theorem C3_error_paths_witness :
    resample_dataset chooseTake sampleTake 1 fileUnsupportedW =
      .error "Unsupported file format. Please upload a file in xlsx, csv, json, or parquet format." ∧
    resample_dataset chooseTake sampleTake 1 fileBadCsvW =
      .error ("Unable to decode the file with detected encoding: " ++ fileBadCsvW.csvEncoding ++ ".") ∧
    resample_dataset chooseTake sampleTake 1 fileMissingColsW =
      .error "Required columns \x27분류\x27 or \x27message_tree_id\x27 not found in the dataset." :=
  ⟨C3_error_paths.1 chooseTake sampleTake 1 fileUnsupportedW ".txt" rfl,
   C3_error_paths.2.1 chooseTake sampleTake 1 fileBadCsvW rfl rfl,
   C3_error_paths.2.2 chooseTake sampleTake 1 fileMissingColsW (Or.inl rfl) (Or.inl (by decide))⟩

/-! ## Row-policy example, column preservation, and no fabrication -/

/-- C7: on the JSON dataset with labels `A` (10 rows) and `B` (4 rows) and
ratio 2, the cap is `ceil(4 * 2) = 8`; for any sampler satisfying the
without-replacement contract the output has exactly 8 rows of label `A`
and all 4 rows of label `B` (its `B` rows equal the input's `B` rows as a
multiset). -/
theorem C7_row_policy_example (sample : List (List String) → Nat → List (List String))
    (hs : SampleOk sample) (out : DataFrame)
    (h : resampleJson sample 2 dfJsonW = .ok out) :
    out.rows.countP (fun x => decide (labelOf dfJsonW.cols x = "A")) = 8 ∧
    out.rows.countP (fun x => decide (labelOf dfJsonW.cols x = "B")) = 4 ∧
    (↑(out.rows.filter (fun x => decide (labelOf dfJsonW.cols x = "B"))) : Multiset (List String)) =
      ↑(dfJsonW.rows.filter (fun x => decide (labelOf dfJsonW.cols x = "B"))) := by
  obtain rfl := resampleJson_ok h
  have hcats : classCats dfJsonW.cols dfJsonW.rows = ["A", "B"] := by decide
  have hminA : Nat.min (classRows dfJsonW.cols dfJsonW.rows "A").length
      (maxSamplesN 2 dfJsonW.cols dfJsonW.rows) = 8 := by decide
  have hminB : Nat.min (classRows dfJsonW.cols dfJsonW.rows "B").length
      (maxSamplesN 2 dfJsonW.cols dfJsonW.rows) = 4 := by decide
  have hout : jsonOut sample 2 dfJsonW.cols dfJsonW.rows =
      sample (classRows dfJsonW.cols dfJsonW.rows "A") 8 ++
      (sample (classRows dfJsonW.cols dfJsonW.rows "B") 4 ++ []) := by
    rw [jsonOut, hcats]
    simp only [List.map_cons, List.map_nil, List.flatten_cons, List.flatten_nil,
      jsonBucket]
    rw [hminA, hminB]
  obtain ⟨hlenA, hleA⟩ := hs (classRows dfJsonW.cols dfJsonW.rows "A") 8 (by decide)
  obtain ⟨hlenB, hleB⟩ := hs (classRows dfJsonW.cols dfJsonW.rows "B") 4 (by decide)
  have hallA : ∀ x ∈ sample (classRows dfJsonW.cols dfJsonW.rows "A") 8,
      labelOf dfJsonW.cols x = "A" := fun x hx =>
    (mem_classRows.1 (Multiset.mem_coe.1 (Multiset.subset_of_le hleA (Multiset.mem_coe.2 hx)))).2
  have hallB : ∀ x ∈ sample (classRows dfJsonW.cols dfJsonW.rows "B") 4,
      labelOf dfJsonW.cols x = "B" := fun x hx =>
    (mem_classRows.1 (Multiset.mem_coe.1 (Multiset.subset_of_le hleB (Multiset.mem_coe.2 hx)))).2
  have hcA : (sample (classRows dfJsonW.cols dfJsonW.rows "A") 8).countP
      (fun x => decide (labelOf dfJsonW.cols x = "A")) = 8 := by
    rw [List.countP_eq_length.2 (fun a ha => decide_eq_true (hallA a ha))]
    exact hlenA
  have hcAB : (sample (classRows dfJsonW.cols dfJsonW.rows "B") 4).countP
      (fun x => decide (labelOf dfJsonW.cols x = "A")) = 0 := by
    rw [List.countP_eq_zero]
    intro x hx hcon
    have h1 := hallB x hx
    have h2 := of_decide_eq_true hcon
    rw [h1] at h2
    exact (by decide : ¬ ("B" : String) = "A") h2
  have hcB : (sample (classRows dfJsonW.cols dfJsonW.rows "B") 4).countP
      (fun x => decide (labelOf dfJsonW.cols x = "B")) = 4 := by
    rw [List.countP_eq_length.2 (fun a ha => decide_eq_true (hallB a ha))]
    exact hlenB
  have hcBA : (sample (classRows dfJsonW.cols dfJsonW.rows "A") 8).countP
      (fun x => decide (labelOf dfJsonW.cols x = "B")) = 0 := by
    rw [List.countP_eq_zero]
    intro x hx hcon
    have h1 := hallA x hx
    have h2 := of_decide_eq_true hcon
    rw [h1] at h2
    exact (by decide : ¬ ("A" : String) = "B") h2
  refine ⟨?_, ?_, ?_⟩
  · show (jsonOut sample 2 dfJsonW.cols dfJsonW.rows).countP _ = 8
    rw [hout, List.countP_append, List.countP_append, hcA, hcAB]
    rfl
  · show (jsonOut sample 2 dfJsonW.cols dfJsonW.rows).countP _ = 4
    rw [hout, List.countP_append, List.countP_append, hcB, hcBA]
    rfl
  · show (↑((jsonOut sample 2 dfJsonW.cols dfJsonW.rows).filter _) : Multiset (List String)) = _
    have hfA : (sample (classRows dfJsonW.cols dfJsonW.rows "A") 8).filter
        (fun x => decide (labelOf dfJsonW.cols x = "B")) = [] := by
      rw [← List.length_eq_zero, ← List.countP_eq_length_filter]
      exact hcBA
    have hfB : (sample (classRows dfJsonW.cols dfJsonW.rows "B") 4).filter
        (fun x => decide (labelOf dfJsonW.cols x = "B")) =
        sample (classRows dfJsonW.cols dfJsonW.rows "B") 4 :=
      List.filter_eq_self.2 (fun a ha => decide_eq_true (hallB a ha))
    have hBeq : (↑(sample (classRows dfJsonW.cols dfJsonW.rows "B") 4) : Multiset (List String)) =
        ↑(classRows dfJsonW.cols dfJsonW.rows "B") := by
      apply Multiset.eq_of_le_of_card_le hleB
      rw [Multiset.coe_card, Multiset.coe_card, hlenB]
      decide
    rw [hout, List.filter_append, List.filter_append, hfA, hfB]
    simpa using hBeq

/-- C7 witness: the row-policy example evaluated with the take-first
sampler. -/
theorem C7_row_policy_example_witness :
    outJsonW.rows.countP (fun x => decide (labelOf dfJsonW.cols x = "A")) = 8 ∧
    outJsonW.rows.countP (fun x => decide (labelOf dfJsonW.cols x = "B")) = 4 ∧
    (↑(outJsonW.rows.filter (fun x => decide (labelOf dfJsonW.cols x = "B"))) : Multiset (List String)) =
      ↑(dfJsonW.rows.filter (fun x => decide (labelOf dfJsonW.cols x = "B"))) :=
  C7_row_policy_example sampleTake sampleTake_ok outJsonW rfl

/-- C8: every successful run of `resample_dataset` produces a dataframe
with exactly the same column list as the loaded, whitespace-stripped
input (hence the same column set). -/
theorem C8_same_columns (choose : List String → Nat → List String)
    (sample : List (List String) → Nat → List (List String)) (r : ℚ)
    (f : InputFile) (w : WriteOut)
    (h : resample_dataset choose sample r f = .ok w) :
    w.df.cols = (stripDF f.content).cols := by
  rcases resample_dataset_ok h with ⟨hj, hr⟩ | ⟨hj, hr⟩
  · rw [resampleJson_ok hr]
  · rw [resampleTabular_ok hr]

/-- C8 witness: the concrete tabular file round-trips its column list. -/
theorem C8_same_columns_witness :
    writeTabW.df.cols = (stripDF fileTabW.content).cols :=
  C8_same_columns chooseTake sampleTake 1 fileTabW writeTabW rfl

/-- C10: on both policies, resampling only filters: the output rows form a
sub-multiset of the input rows, so no row is fabricated and no row gains
multiplicity. -/
theorem C10_subsample_only (choose : List String → Nat → List String)
    (sample : List (List String) → Nat → List (List String)) (r : ℚ)
    (f : InputFile) (w : WriteOut) (hch : ChooseOk choose) (hs : SampleOk sample)
    (h : resample_dataset choose sample r f = .ok w) :
    (↑w.df.rows : Multiset (List String)) ≤ ↑f.content.rows := by
  rcases resample_dataset_ok h with ⟨hj, hr⟩ | ⟨hj, hr⟩
  · rw [resampleJson_ok hr]
    show (↑(jsonOut sample r (stripDF f.content).cols (stripDF f.content).rows) :
      Multiset (List String)) ≤ ↑f.content.rows
    unfold jsonOut
    apply flattenBuckets_multiset_le
    intro c hc x
    obtain ⟨hlen, hle⟩ := hs (classRows (stripDF f.content).cols (stripDF f.content).rows c)
      (Nat.min (classRows (stripDF f.content).cols (stripDF f.content).rows c).length
        (maxSamplesN r (stripDF f.content).cols (stripDF f.content).rows))
      (Nat.min_le_left _ _)
    exact multiset_le_iff_cnt.1 hle x
  · rw [resampleTabular_ok hr]
    show (↑(tabularOut choose r (stripDF f.content).cols (stripDF f.content).rows) :
      Multiset (List String)) ≤ ↑f.content.rows
    unfold tabularOut
    apply flattenBuckets_multiset_le
    intro c hc x
    exact (List.filter_sublist _).countP_le _

/-- C10 witness: the concrete tabular run keeps a sub-multiset of the
input rows. -/
theorem C10_subsample_only_witness :
    (↑writeTabW.df.rows : Multiset (List String)) ≤ ↑fileTabW.content.rows :=
  C10_subsample_only chooseTake sampleTake 1 fileTabW writeTabW chooseTake_ok sampleTake_ok rfl

/-! ## Download loop: per-step characterization -/

theorem processRow_logs (fetch : String → FetchResult) (total : Nat) (s : DLState)
    (row : ManifestRow) :
    (processRow fetch total s row).logLog = s.logLog ∧
    (processRow fetch total s row).logCsv = s.logCsv ∧
    (processRow fetch total s row).errorCsv = s.errorCsv := by
  unfold processRow
  cases hu : row.url with
  | none => exact ⟨rfl, rfl, rfl⟩
  | some u =>
    dsimp only
    by_cases htrim : pyStrip u = ""
    · rw [if_pos htrim]
      exact ⟨rfl, rfl, rfl⟩
    · rw [if_neg htrim]
      cases hfu : fetch u with
      | err m => exact ⟨rfl, rfl, rfl⟩
      | ok content =>
        dsimp only
        by_cases hh : is_html content
        · rw [if_pos hh]
          exact ⟨rfl, rfl, rfl⟩
        · rw [if_neg hh]
          exact ⟨rfl, rfl, rfl⟩

theorem processRow_errorLog (fetch : String → FetchResult) (total : Nat) (s : DLState)
    (row : ManifestRow) :
    (processRow fetch total s row).errorLog.length =
      s.errorLog.length + (if rowFails fetch row then 1 else 0) := by
  unfold processRow rowFails
  cases hu : row.url with
  | none => simp
  | some u =>
    dsimp only
    by_cases htrim : pyStrip u = ""
    · rw [if_pos htrim]
      simp [htrim]
    · rw [if_neg htrim]
      cases hfu : fetch u with
      | err m => simp [htrim, List.length_append]
      | ok content =>
        dsimp only
        by_cases hh : is_html content
        · rw [if_pos hh]
          simp [htrim, hh, List.length_append]
        · rw [if_neg hh]
          simp [htrim, hh]

theorem processRow_count_progress (fetch : String → FetchResult) (total : Nat)
    (s : DLState) (row : ManifestRow) :
    (processRow fetch total s row).count =
      s.count + (if rowSucceeds fetch row then 1 else 0) ∧
    (processRow fetch total s row).progress =
      (if rowSucceeds fetch row
       then s.progress ++ [((s.count + 1 : Nat) : ℚ) / (total : ℚ)]
       else s.progress) := by
  unfold processRow rowSucceeds
  cases hu : row.url with
  | none => simp
  | some u =>
    dsimp only
    by_cases htrim : pyStrip u = ""
    · rw [if_pos htrim]
      simp [htrim]
    · rw [if_neg htrim]
      cases hfu : fetch u with
      | err m => simp [htrim]
      | ok content =>
        dsimp only
        by_cases hh : is_html content
        · rw [if_pos hh]
          simp [htrim, hh]
        · rw [if_neg hh]
          simp [htrim, hh]

theorem processRow_fail_step (fetch : String → FetchResult) (total : Nat)
    (s : DLState) (row : ManifestRow) (u : String) (hu : row.url = some u)
    (htrim : ¬ pyStrip u = "") (hf : fetchFails fetch u = true) :
    destFolder s.count row ∈ (processRow fetch total s row).dirs ∧
    (processRow fetch total s row).files = s.files := by
  unfold processRow
  rw [hu]
  dsimp only
  rw [if_neg htrim]
  unfold fetchFails at hf
  cases hfu : fetch u with
  | err m =>
    dsimp only
    constructor
    · split_ifs with hmem
      · exact hmem
      · exact List.mem_append_right _ (List.mem_singleton.2 rfl)
    · rfl
  | ok content =>
    rw [hfu] at hf
    dsimp only at hf
    dsimp only
    rw [if_pos hf]
    constructor
    · split_ifs with hmem
      · exact hmem
      · exact List.mem_append_right _ (List.mem_singleton.2 rfl)
    · rfl

theorem processRow_dirs_mono (fetch : String → FetchResult) (total : Nat)
    (s : DLState) (row : ManifestRow) :
    ∀ d ∈ s.dirs, d ∈ (processRow fetch total s row).dirs := by
  intro d hd
  unfold processRow
  cases hu : row.url with
  | none => exact hd
  | some u =>
    dsimp only
    by_cases htrim : pyStrip u = ""
    · rw [if_pos htrim]
      exact hd
    · rw [if_neg htrim]
      have hd1 : d ∈ (if destFolder s.count row ∈ s.dirs then s.dirs
          else s.dirs ++ [destFolder s.count row]) := by
        split_ifs
        · exact hd
        · exact List.mem_append_left _ hd
      cases hfu : fetch u with
      | err m => exact hd1
      | ok content =>
        dsimp only
        by_cases hh : is_html content
        · rw [if_pos hh]
          exact hd1
        · rw [if_neg hh]
          exact hd1

theorem foldl_dirs_mono (fetch : String → FetchResult) (total : Nat) :
    ∀ (l : List ManifestRow) (s : DLState) (d : List Char × List Char),
      d ∈ s.dirs → d ∈ (l.foldl (processRow fetch total) s).dirs := by
  intro l
  induction l with
  | nil => intro s d hd; exact hd
  | cons row t ih =>
    intro s d hd
    exact ih (processRow fetch total s row) d (processRow_dirs_mono fetch total s row d hd)

/-! ## Download loop: foldl invariants -/

theorem foldl_log_inv (fetch : String → FetchResult) (total : Nat) :
    ∀ (l : List ManifestRow) (s : DLState),
      (l.foldl (processRow fetch total) s).logLog = s.logLog ∧
      (l.foldl (processRow fetch total) s).logCsv = s.logCsv ∧
      (l.foldl (processRow fetch total) s).errorCsv = s.errorCsv ∧
      (l.foldl (processRow fetch total) s).errorLog.length =
        s.errorLog.length + (l.filter (rowFails fetch)).length := by
  intro l
  induction l with
  | nil => intro s; exact ⟨rfl, rfl, rfl, by simp⟩
  | cons row t ih =>
    intro s
    obtain ⟨ih1, ih2, ih3, ih4⟩ := ih (processRow fetch total s row)
    obtain ⟨hp1, hp2, hp3⟩ := processRow_logs fetch total s row
    have hel := processRow_errorLog fetch total s row
    refine ⟨by rw [List.foldl_cons, ih1, hp1], by rw [List.foldl_cons, ih2, hp2],
      by rw [List.foldl_cons, ih3, hp3], ?_⟩
    rw [List.foldl_cons, ih4, hel, List.filter_cons]
    by_cases hfail : rowFails fetch row
    · rw [if_pos hfail, if_pos hfail]
      simp only [List.length_cons]
      omega
    · rw [if_neg hfail, if_neg hfail]
      omega

theorem foldl_progress_inv (fetch : String → FetchResult) (total : Nat) :
    ∀ (l : List ManifestRow) (s : DLState),
      (l.foldl (processRow fetch total) s).count =
        s.count + (l.filter (rowSucceeds fetch)).length ∧
      (l.foldl (processRow fetch total) s).progress =
        s.progress ++ expectedProgress s.count total (l.filter (rowSucceeds fetch)).length := by
  intro l
  induction l with
  | nil => intro s; exact ⟨by simp, by simp [expectedProgress]⟩
  | cons row t ih =>
    intro s
    obtain ⟨ih1, ih2⟩ := ih (processRow fetch total s row)
    obtain ⟨hc, hp⟩ := processRow_count_progress fetch total s row
    rw [List.foldl_cons, List.filter_cons]
    by_cases hsucc : rowSucceeds fetch row
    · rw [if_pos hsucc] at hc hp
      rw [if_pos hsucc, List.length_cons]
      refine ⟨?_, ?_⟩
      · rw [ih1, hc]
        omega
      · rw [ih2, hc, hp, List.append_assoc, List.singleton_append]
        rfl
    · rw [if_neg hsucc] at hc hp
      rw [if_neg hsucc]
      refine ⟨?_, ?_⟩
      · rw [ih1, hc]
        omega
      · rw [ih2, hc, hp, Nat.add_zero]

/-! ## Download loop: claims -/

/-- C4 counterexample: a manifest with one processed, failing row leaves
`log.log` and `log.csv` holding only their initial header content and
`error.csv` holding only its header — the per-row outcome is recorded in
none of them (only `error.log` grows), contradicting the claim that every
outcome is appended to both main logs and every failure to both error
files. -/
theorem C4_logging_counterexample :
    rowFails fetchErrW rowBadW = true ∧
    (download_files fetchErrW [rowBadW]).logLog = ["Download Log"] ∧
    (download_files fetchErrW [rowBadW]).logCsv = [logCsvHeader] ∧
    (download_files fetchErrW [rowBadW]).errorCsv = [errorCsvHeader] ∧
    (download_files fetchErrW [rowBadW]).errorLog.length = 2 := by
  exact ⟨rfl, rfl, rfl, rfl, rfl⟩

/-- C4 (amended): `download_files` never appends per-row outcomes to
`log.log`, `log.csv` or `error.csv` — after any run they hold exactly
their `initialize_logging` headers; only `error.log` grows, by exactly one
line per failing row (blank-URL rows are skipped and log nothing). -/
theorem C4_logging_amended (fetch : String → FetchResult) (df : List ManifestRow) :
    (download_files fetch df).logLog = ["Download Log"] ∧
    (download_files fetch df).logCsv = [logCsvHeader] ∧
    (download_files fetch df).errorCsv = [errorCsvHeader] ∧
    (download_files fetch df).errorLog.length =
      1 + (df.filter (rowFails fetch)).length := by
  obtain ⟨h1, h2, h3, h4⟩ := foldl_log_inv fetch df.length df initState
  exact ⟨h1, h2, h3, by rw [download_files, h4]; rfl⟩

/-- C5 counterexample: with one successfully downloaded row, the only
progress update is `download_count / total_files = 2088 / 1`, far above 1;
so the reported value is neither the row index over the row count nor
within `[0, 1]`. -/
theorem C5_progress_counterexample :
    (download_files fetchOkW [rowOkW]).progress = [0, 2088] ∧
    ¬ ((2088 : ℚ) ≤ 1) ∧ ([rowOkW] : List ManifestRow).length = 1 := by
  refine ⟨?_, by norm_num, rfl⟩
  have hflt : (([rowOkW] : List ManifestRow).filter (rowSucceeds fetchOkW)).length = 1 := by
    decide
  have h := (foldl_progress_inv fetchOkW ([rowOkW] : List ManifestRow).length
    [rowOkW] initState).2
  rw [hflt] at h
  rw [download_files, h]
  show ([(0 : ℚ)] ++ expectedProgress 2087 ([rowOkW] : List ManifestRow).length 1) = [0, 2088]
  rw [show expectedProgress 2087 ([rowOkW] : List ManifestRow).length 1 =
    [((2088 : Nat) : ℚ) / ((1 : Nat) : ℚ)] from rfl]
  norm_num

/-- C5 (amended): progress is updated only after each successful download
(not after every row), with the value `download_count / total_files` where
the counter is seeded at 2087; after the whole run the counter equals
2087 plus the number of successes and the reported values are
`(2087+1)/total, (2087+2)/total, ...` (which exceed 1 whenever
`2087 + k > total`), preceded by the bar's creation value 0. -/
theorem C5_progress_amended (fetch : String → FetchResult) (df : List ManifestRow) :
    (download_files fetch df).count = 2087 + (df.filter (rowSucceeds fetch)).length ∧
    (download_files fetch df).progress =
      (0 : ℚ) :: expectedProgress 2087 df.length (df.filter (rowSucceeds fetch)).length := by
  obtain ⟨h1, h2⟩ := foldl_progress_inv fetch df.length df initState
  exact ⟨by rw [download_files, h1]; rfl, by rw [download_files, h2]; rfl⟩

/-- C9: for a row with a non-blank URL whose fetch fails (request error or
HTML-sniffed payload), the destination directory `organization/index_title`
is still created during that row's processing (it is made before the fetch)
while no file is written for the row; and the loop never removes a
directory, so once created it persists through all later rows to the final
state. -/
theorem C9_dir_persists_on_failure :
    (∀ fetch total (s : DLState) (row : ManifestRow) (u : String),
      row.url = some u → ¬ pyStrip u = "" → fetchFails fetch u = true →
      destFolder s.count row ∈ (processRow fetch total s row).dirs ∧
      (processRow fetch total s row).files = s.files) ∧
    (∀ fetch total (l : List ManifestRow) (s : DLState) (d : List Char × List Char),
      d ∈ s.dirs → d ∈ (l.foldl (processRow fetch total) s).dirs) :=
  ⟨fun fetch total s row u hu htrim hf => processRow_fail_step fetch total s row u hu htrim hf,
   fun fetch total l s d hd => foldl_dirs_mono fetch total l s d hd⟩

/-- C9 witness: the failing concrete row creates its destination directory
and writes no file, and the directory survives processing a further row. -/
theorem C9_dir_persists_on_failure_witness :
    destFolder 2087 rowBadW ∈ (processRow fetchErrW 2 initState rowBadW).dirs ∧
    (processRow fetchErrW 2 initState rowBadW).files = initState.files ∧
    destFolder 2087 rowBadW ∈
      (([rowOkW] : List ManifestRow).foldl (processRow fetchErrW 2)
        (processRow fetchErrW 2 initState rowBadW)).dirs :=
  ⟨(C9_dir_persists_on_failure.1 fetchErrW 2 initState rowBadW "http://example.com/bad"
      rfl (by decide) rfl).1,
   (C9_dir_persists_on_failure.1 fetchErrW 2 initState rowBadW "http://example.com/bad"
      rfl (by decide) rfl).2,
   C9_dir_persists_on_failure.2 fetchErrW 2 [rowOkW] (processRow fetchErrW 2 initState rowBadW)
     (destFolder 2087 rowBadW)
     (C9_dir_persists_on_failure.1 fetchErrW 2 initState rowBadW "http://example.com/bad"
       rfl (by decide) rfl).1⟩
